import Mathlib

/-!
Shallow embedding of the pyGuard repository's version-constraint resolvers,
rule dispatch engine and metadata detectors, together with proofs checking
the natural-language specification against the code.

Source files embedded:
  - src/pysecurity/scanners/project_scanner.py  (RequirementsScanner)
  - src/guarddog/scanners/pypi_project_scanner.py  (PypiRequirementsScanner)
  - src/guarddog/cli.py  (_get_rule_pram and the _verify/_scan drivers)
  - src/pysecurity/analyzer/analyzer.py  (Analyzer)
  - src/guarddog/analyzer/metadata/empty_information.py  (EmptyInfoDetector)
-/

namespace PyGuard

/-! ## Python dict primitives

Python dicts keep insertion order; writing an existing key updates the value
in place, writing a new key appends it.  `d1 | d2` keeps `d1`'s order and
overwrites common keys with `d2`'s values.  We model dicts with string keys
as association lists carrying that exact behaviour. -/

/-- Write `d[k] = v` on an insertion-ordered dict. -/
def pyDictInsert {V : Type} : List (String × V) → String → V → List (String × V)
  | [], k, v => [(k, v)]
  | p :: rest, k, v => if p.1 = k then (k, v) :: rest else p :: pyDictInsert rest k v

/-- Read `d.get(k)` on an insertion-ordered dict. -/
def pyDictLookup {V : Type} : List (String × V) → String → Option V
  | [], _ => none
  | p :: rest, k => if p.1 = k then some p.2 else pyDictLookup rest k

/-- Python `d1 | d2`: entries of `d2` written into `d1` one by one. -/
def pyDictUnion {V : Type} : List (String × V) → List (String × V) → List (String × V)
  | d1, [] => d1
  | d1, p :: rest => pyDictUnion (pyDictInsert d1 p.1 p.2) rest

/-! ## Python string ordering

Python compares strings lexicographically by code point; `pysecurity`'s
resolver applies this ordering directly to version strings (`v > version`
on `str` values), and `guarddog`'s best-match pick uses `sorted(...)` on
strings.  We embed that ordering explicitly. -/

/-- Lexicographic comparison of char lists by code point, as Python `<` on `str`. -/
def pyLtChars : List Char → List Char → Bool
  | [], [] => false
  | [], _ :: _ => true
  | _ :: _, [] => false
  | c :: cs, d :: ds =>
    if c.val < d.val then true
    else if d.val < c.val then false
    else pyLtChars cs ds

/-- Python `s < t` on strings. -/
def pyLt (s t : String) : Bool := pyLtChars s.data t.data

/-- Python `s <= t` on strings. -/
def pyLe (s t : String) : Bool := pyLt s t || s == t

/-- Helper for Python `s.split(".")`: accumulate the current segment (reversed)
while walking the characters. -/
def pySplitDotAux : List Char → List Char → List String
  | [], acc => [String.mk acc.reverse]
  | c :: cs, acc =>
    if c = '.' then String.mk acc.reverse :: pySplitDotAux cs []
    else pySplitDotAux cs (c :: acc)

/-- Python `s.split(".")`. -/
def pySplitDot (s : String) : List String := pySplitDotAux s.data []

/-- Python `"".join(parts)`. -/
def pyJoin (parts : List String) : String :=
  String.mk (parts.foldr (fun s acc => s.data ++ acc) [])

/-- Python `s.startswith(p)`. -/
def pyStartsWith (s p : String) : Bool := p.data.isPrefixOf s.data

/-! ## Python set primitives

Python `set` values are membership-only collections; the resolvers build them
with set comprehensions / `set(...)` and combine them with `&`.  We model a
set as a duplicate-free list and compare sets by two-sided containment. -/

/-- Python `set(iterable)`: membership-deduplicated elements. -/
def pySetOf (l : List String) : List String := l.dedup

/-- Python `a & b` on sets. -/
def pySetInter (a b : List String) : List String := a.filter (fun x => b.contains x)

/-- Python `a == b` on sets: equality as sets, i.e. two-sided containment. -/
def pySetEq (a b : List String) : Bool :=
  a.all (fun x => b.contains x) && b.all (fun x => a.contains x)

/-- Insert into a list kept descending under Python string ordering. -/
def pySortInsertDesc (v : String) : List String → List String
  | [] => [v]
  | w :: ws => if pyLt w v then v :: w :: ws else w :: pySortInsertDesc v ws

/-- Python `sorted(keys, reverse=True)` on strings. -/
def pySortDesc : List String → List String
  | [] => []
  | v :: vs => pySortInsertDesc v (pySortDesc vs)

/-- Python `sorted(result).pop()`: the maximum of a nonempty string list under
Python string ordering (`""` for the empty list, a case the caller excludes). -/
def pyMaxString : List String → String
  | [] => ""
  | v :: vs => (v :: vs).foldl (fun a b => if pyLt a b then b else a) v

/-! ## pysecurity resolver

Embedding of `RequirementsScanner.parse_requirements`
(src/pysecurity/scanners/project_scanner.py).  The registry client
(`requests.get` + JSON decoding of `data["releases"].keys()`) is an external
collaborator, modelled as a function from package name to `Option` of the
raw release-key list, `none` standing for the exception path (package not on
PyPI / network failure).  The `==` qualifier calls Python's `re.search`,
also external, passed in as an oracle `reSearch pattern candidate`.
`pkg_resources.parse_requirements` is external as well: the embedding takes
the already-parsed requirement list as input. -/

/-- Parsed requirement, as produced by `pkg_resources.parse_requirements`:
a project name plus `specs`, the list of `(qualifier, version)` pairs. -/
structure PyReq where
  projectName : String
  specs : List (String × String)
deriving DecidableEq

/-- Embeds the inner helper `versions(package_name)`: fetch the release keys
and return `sorted(data["releases"].keys(), reverse=True)`. -/
def pyVersions (registry : String → Option (List String)) (packageName : String) :
    Option (List String) :=
  (registry packageName).map pySortDesc

/-- Embeds the `case "~="` branch: `prefix = "".join(version.split(".")[:-1])`,
then the first available version (list already sorted decreasing) that is
`>=` the bound (string comparison) and starts with that prefix is turned into
`set(available_version)` — in Python, the set of the string's characters.
When no candidate matches, `used_versions` stays `None`. -/
def compatUsedVersions (availableVersions : List String) (version : String) :
    Option (List String) :=
  let pfx := pyJoin ((pySplitDot version).dropLast)
  match availableVersions.find? (fun v => pyLe version v && pyStartsWith v pfx) with
  | some v => some (pySetOf (v.data.map (fun c => String.mk [c])))
  | none => none

/-- Outcome of processing one `(qualifier, version)` spec: either the updated
`valid_versions` value, or a raised `TypeError` (from `set & None`) that
aborts the surrounding requirement loop. -/
inductive SpecStep where
  | ok (validVersions : Option (List String))
  | raised
deriving DecidableEq

/-- Embeds one iteration of `for spec in requirement.specs`. A fetch failure
writes a diagnostic and `continue`s; an unknown qualifier also `continue`s
(skipping the intersection update); the known qualifiers compute
`used_versions` and then run the `valid_versions` update, where intersecting
a set with `None` raises `TypeError`. -/
def processSpec (registry : String → Option (List String))
    (reSearch : String → String → Bool) (projectName : String)
    (validVersions : Option (List String)) (spec : String × String) : SpecStep :=
  let (qualifier, version) := spec
  match pyVersions registry projectName with
  | none => .ok validVersions
  | some availableVersions =>
    let step : Option (Option (List String)) :=
      match qualifier with
      | ">" => some (some (pySetOf (availableVersions.filter (fun v => pyLt version v))))
      | "<" => some (some (pySetOf (availableVersions.filter (fun v => pyLt v version))))
      | ">=" => some (some (pySetOf (availableVersions.filter (fun v => pyLe version v))))
      | "<=" => some (some (pySetOf (availableVersions.filter (fun v => pyLe v version))))
      | "==" => some (some (pySetOf (availableVersions.filter (fun v => reSearch version v))))
      | "~=" => some (compatUsedVersions availableVersions version)
      | _ => none
    match step with
    | none => .ok validVersions
    | some usedVersions =>
      match validVersions, usedVersions with
      | none, _ => .ok usedVersions
      | some vv, some uu => .ok (some (pySetInter vv uu))
      | some _, none => .raised

/-- Embeds the whole `for spec in requirement.specs` loop, starting from
`valid_versions = None` and propagating a raised `TypeError`. -/
def processSpecs (registry : String → Option (List String))
    (reSearch : String → String → Bool) (projectName : String)
    (st : SpecStep) : List (String × String) → SpecStep
  | [] => st
  | spec :: rest =>
    match st with
    | .raised => .raised
    | .ok validVersions =>
      processSpecs registry reSearch projectName
        (processSpec registry reSearch projectName validVersions spec) rest

/-- Embeds `for requirement in pkg_resources.parse_requirements(...)` with its
surrounding `try`: each requirement stores
`dependencies[requirement.project_name] = valid_versions` (possibly `None`);
an exception inside the loop is caught by the outer `except`, which writes a
diagnostic and returns the dependencies accumulated so far. -/
def pyParseRequirementsGo (registry : String → Option (List String))
    (reSearch : String → String → Bool)
    (deps : List (String × Option (List String))) :
    List PyReq → List (String × Option (List String))
  | [] => deps
  | req :: rest =>
    match processSpecs registry reSearch req.projectName (.ok none) req.specs with
    | .raised => deps
    | .ok validVersions =>
      pyParseRequirementsGo registry reSearch
        (pyDictInsert deps req.projectName validVersions) rest

/-- Embeds `RequirementsScanner.parse_requirements` from the parsed
requirement list on: returns the `dependencies` dict mapping each project
name to `valid_versions`, an `Option (List String)` because the code can
store Python `None` there. -/
def pyParseRequirements (registry : String → Option (List String))
    (reSearch : String → String → Bool) (reqs : List PyReq) :
    List (String × Option (List String)) :=
  pyParseRequirementsGo registry reSearch [] reqs

/-! ## Model of the external `packaging` library

`guarddog`'s resolver delegates per-version filtering to
`packaging.specifiers.Specifier`, an external collaborator.  We model its
documented contract for the release-only fragment actually exercised here:
a `Specifier` is exactly one operator followed by one version (a string with
a comma — i.e. a multi-clause `SpecifierSet` — or any other shape raises
`InvalidSpecifier`, a `ValueError`), versions are dotted numeric release
segments, and comparisons order versions by their release segments padded
with zeros (so `1.10 > 1.9` and `1.4.0 == 1.4`). -/

/-- Decimal value of a digit string (`0` for the empty string). -/
def decDigitsVal : List Char → Nat → Nat
  | [], acc => acc
  | c :: cs, acc => decDigitsVal cs (acc * 10 + (c.toNat - 48))

/-- Release segments of a version string: `"1.10"` becomes `[1, 10]`. -/
def releaseSegments (s : String) : List Nat :=
  (pySplitDot s).map (fun seg => decDigitsVal seg.data 0)

/-- Check that every remaining (zero-padded against) segment is zero. -/
def allZero (l : List Nat) : Bool := l.all (fun n => n == 0)

/-- Compare release-segment lists with implicit zero padding. -/
def relCmp : List Nat → List Nat → Ordering
  | [], b => if allZero b then .eq else .lt
  | a :: as, [] => if allZero (a :: as) then .eq else .gt
  | a :: as, b :: bs =>
    if a < b then .lt else if b < a then .gt else relCmp as bs

/-- Version-ordering `s < t` (PEP 440 release comparison). -/
def pepLt (s t : String) : Bool := relCmp (releaseSegments s) (releaseSegments t) == .lt

/-- Version-ordering `s <= t` (PEP 440 release comparison). -/
def pepLe (s t : String) : Bool := !(relCmp (releaseSegments s) (releaseSegments t) == .gt)

/-- Version-ordering `s == t` (PEP 440 release comparison). -/
def pepEq (s t : String) : Bool := relCmp (releaseSegments s) (releaseSegments t) == .eq

/-- Shape of the version part accepted by the modelled `Specifier` grammar:
nonempty, made of digits and dots (the release-only fragment; in particular a
comma, as produced by a multi-clause specifier string, is rejected). -/
def isReleaseShaped (s : String) : Bool :=
  s.length > 0 && s.data.all (fun c => c.isDigit || c = '.')

/-- Modelled constructor of `packaging.specifiers.Specifier`: splits one
`<operator><version>` clause, `none` standing for the raised
`InvalidSpecifier` (`ValueError`). -/
def parseSpecifier (s : String) : Option (String × String) :=
  ["===", "==", "!=", "~=", ">=", "<=", ">", "<"].findSome? (fun op =>
    let rest := String.mk (s.data.drop op.data.length)
    if pyStartsWith s op && isReleaseShaped rest then some (op, rest) else none)

/-- Modelled `Specifier.contains` for the release-only fragment. -/
def specContains (op bound v : String) : Bool :=
  match op with
  | ">" => pepLt bound v
  | "<" => pepLt v bound
  | ">=" => pepLe bound v
  | "<=" => pepLe v bound
  | "==" => pepEq v bound
  | "!=" => !pepEq v bound
  | "===" => v == bound
  | "~=" =>
    pepLe bound v &&
      relCmp ((releaseSegments v).take ((releaseSegments bound).length - 1))
        ((releaseSegments bound).dropLast) == .eq
  | _ => false

/-- Modelled `Specifier.filter`: `[m for m in spec.filter(versions)]`. -/
def specFilter (op bound : String) (versions : List String) : List String :=
  versions.filter (fun v => specContains op bound v)

/-! ## guarddog resolver

Embedding of `PypiRequirementsScanner.parse_requirements`
(src/guarddog/scanners/pypi_project_scanner.py).  As above, the PyPI registry
is an external collaborator modelled as a function to `Option` of the raw
release-key list (`none` = the exception path), and the parsed requirement
list (`pkg_resources`) is the input: each entry is the project name together
with the `semver_range` string passed to `find_all_versions` (the
requirement's URL if present, else `str(requirement.specifier)`). -/

/-- Embeds the helper `find_all_versions(package_name, semver_range)`:
fetch and sort the release keys, filter them through `Specifier` (keeping the
raw range string when `Specifier` raises `ValueError`), and in best-match
mode (`VERIFY_EXHAUSTIVE_DEPENDENCIES` false) collapse a nonempty result to
`sorted(result).pop()`.  `none` models the fetch raising. -/
def gdFindAllVersions (registry : String → Option (List String)) (exhaustive : Bool)
    (packageName semverRange : String) : Option (List String) :=
  match registry packageName with
  | none => none
  | some keys =>
    let versions := pySortDesc keys
    let result : List String :=
      match parseSpecifier semverRange with
      | some (op, bound) => specFilter op bound versions
      | none => [semverRange]
    let result := if !exhaustive && !result.isEmpty then [pyMaxString result] else result
    pySetOf result

/-- Embeds the `for requirement in safe_parse_requirements(...)` loop: a
requirement whose `find_all_versions` call raises is reported and skipped
(`continue`), any other requirement is written into `dependencies`. -/
def gdParseRequirementsGo (registry : String → Option (List String)) (exhaustive : Bool)
    (deps : List (String × List String)) :
    List (String × String) → List (String × List String)
  | [] => deps
  | req :: rest =>
    match gdFindAllVersions registry exhaustive req.1 req.2 with
    | none => gdParseRequirementsGo registry exhaustive deps rest
    | some versions =>
      gdParseRequirementsGo registry exhaustive (pyDictInsert deps req.1 versions) rest

/-- Embeds `PypiRequirementsScanner.parse_requirements` from the parsed
requirement list on. -/
def gdParseRequirements (registry : String → Option (List String)) (exhaustive : Bool)
    (reqs : List (String × String)) : List (String × List String) :=
  gdParseRequirementsGo registry exhaustive [] reqs

/-! ## CLI rule selection

Embedding of `_get_rule_pram` and the shape of the `_verify`/`_scan` drivers
(src/guarddog/cli.py).  `exit(1)` is modelled as `Except.error` carrying the
printed message; the full rule catalog `ALL_RULES` is a parameter. -/

/-- Embeds `_get_rule_pram(rules, exclude_rules)`.  The source sets
`rule_param = ALL_RULES - set(exclude_rules)` before checking the conflict,
but `exit(1)` makes that assignment unobservable. -/
def getRulePram (allRules : Finset String) (rules excludeRules : List String) :
    Except String (Option (Finset String)) := Id.run do
  let mut ruleParam : Option (Finset String) := none
  if rules.length > 0 then
    ruleParam := some rules.toFinset
  if excludeRules.length > 0 then
    ruleParam := some (allRules \ excludeRules.toFinset)
    if rules.length > 0 then
      return .error "--rules and --exclude-rules cannot be used together"
  return .ok ruleParam

/-- Embeds the control flow of `_verify` (and `_scan`): `_get_rule_pram` runs
first, and only if it did not exit does the scanner get built and invoked on
the resolved rule parameter.  The scanner is an external collaborator. -/
def verifyInvocation {Out : Type} (allRules : Finset String)
    (rules excludeRules : List String)
    (scanLocal : Option (Finset String) → Out) : Except String Out :=
  match getRulePram allRules rules excludeRules with
  | .error e => .error e
  | .ok ruleParam => .ok (scanLocal ruleParam)

/-! ## Dispatch engine: metadata rules

Embedding of `Analyzer.analyze_metadata` (src/pysecurity/analyzer/analyzer.py).
A detector's `detect(info)` call is external and can raise; we model the
detector table applied to the fixed metadata snapshot as a function from rule
name to `Option R`, `none` standing for a raised exception (this also covers
the `KeyError` of `self.metadata_detectors[rule]`).  The result type `R` is a
parameter because detectors return heterogeneous values. -/

/-- Embeds `for rule in all_rules: try: results[rule] = ... except: ...`. -/
def metadataLoop {R : Type} (detect : String → Option R)
    (results : List (String × R)) : List String → List (String × R)
  | [] => results
  | rule :: rest =>
    match detect rule with
    | some value => metadataLoop detect (pyDictInsert results rule value) rest
    | none => metadataLoop detect results rest

/-- Embeds `Analyzer.analyze_metadata(info, rules)`: run every selected rule's
detector, isolating raised exceptions per rule. -/
def analyzeMetadata {R : Type} (detect : String → Option R) (allRules : List String) :
    List (String × R) :=
  metadataLoop detect [] allRules

/-! ## Dispatch engine: sourcecode rules

Embedding of `Analyzer.analyze_sourcecode` and
`Analyzer._format_semgrep_response` (src/pysecurity/analyzer/analyzer.py).
The semgrep engine is the external pattern-matching collaborator: the batched
invocation over the whole ruleset directory is one findings list, and the
per-rule invocations are a function from rule name to `Option` of a findings
list, `none` standing for `invoke_semgrep` raising (missing rule file), which
the code re-raises as "`<rule>` is not an existing rule.".  Path
relativization (`os.path.relpath(os.path.abspath(p), targetpath)`) is a
deterministic path computation applied identically on every path, modelled as
a function parameter `relpath`. -/

/-- One semgrep finding, as consumed by `_format_semgrep_response`. -/
structure Finding where
  checkId : String
  path : String
  startLine : Nat
  lines : String
deriving DecidableEq

/-- Locations map of one rule: `location_key` to matched text. -/
abbrev LocMap := List (String × String)

/-- Result map of the sourcecode analysis: rule name to locations map. -/
abbrev RuleMap := List (String × LocMap)

/-- Embeds `label = rule or result["check_id"].split(".")[-1]`. -/
def findingLabel (rule : Option String) (f : Finding) : String :=
  match rule with
  | some r => r
  | none => (pySplitDot f.checkId).getLastD ""

/-- Embeds `location = file + ":" + str(line_start)` after relativization. -/
def findingLocation (relpath : String → String) (f : Finding) : String :=
  relpath f.path ++ ":" ++ toString f.startLine

/-- Embeds one iteration of the `for result in response["results"]` loop of
`_format_semgrep_response`. -/
def formatStep (relpath : String → String) (rule : Option String)
    (results : RuleMap) (f : Finding) : RuleMap :=
  let label := findingLabel rule f
  let location := findingLocation relpath f
  match pyDictLookup results label with
  | none => pyDictInsert results label [(location, f.lines)]
  | some m => pyDictInsert results label (pyDictInsert m location f.lines)

/-- Embeds the full loop of `_format_semgrep_response`. -/
def formatLoop (relpath : String → String) (rule : Option String)
    (results : RuleMap) : List Finding → RuleMap
  | [] => results
  | f :: rest => formatLoop relpath rule (formatStep relpath rule results f) rest

/-- Embeds `Analyzer._format_semgrep_response(response, rule, targetpath)`. -/
def formatSemgrepResponse (relpath : String → String) (response : List Finding)
    (rule : Option String) : RuleMap :=
  formatLoop relpath rule [] response

/-- Embeds the dict comprehension `results = {rule: {} for rule in all_rules}`. -/
def initRuleMap (results : RuleMap) : List String → RuleMap
  | [] => results
  | r :: rest => initRuleMap (pyDictInsert results r []) rest

/-- Embeds the `for rule in rules` loop of the per-rule invocation path:
`results = results | self._format_semgrep_response(response, rule=rule, ...)`,
raising `RuntimeError(rule + " is not an existing rule.")` when the engine
invocation fails. -/
def sourcecodeLoop (relpath : String → String)
    (invokeRule : String → Option (List Finding)) (results : RuleMap) :
    List String → Except String RuleMap
  | [] => .ok results
  | rule :: rest =>
    match invokeRule rule with
    | none => .error (rule ++ " is not an existing rule.")
    | some response =>
      sourcecodeLoop relpath invokeRule
        (pyDictUnion results (formatSemgrepResponse relpath response (some rule))) rest

/-- Embeds `Analyzer.analyze_sourcecode(path, rules)`: `rules = none` is the
batched invocation over the whole ruleset directory (`invokeAll` findings),
`rules = some rs` the per-rule invocation path. -/
def analyzeSourcecode (relpath : String → String) (catalog : List String)
    (invokeAll : List Finding) (invokeRule : String → Option (List Finding))
    (rules : Option (List String)) : Except String RuleMap :=
  match rules with
  | none =>
    .ok (pyDictUnion (initRuleMap [] catalog)
      (formatSemgrepResponse relpath invokeAll none))
  | some rs => sourcecodeLoop relpath invokeRule (initRuleMap [] rs) rs

/-! ## EmptyInfoDetector

Embedding of `EmptyInfoDetector.detect`
(src/guarddog/analyzer/metadata/empty_information.py):
`len(package_info["info"]["description"].split()) == 0`, with Python's
no-argument `str.split`, which splits on runs of whitespace and never
produces empty tokens. -/

/-- Whitespace characters recognised by Python's no-argument `str.split`
(ASCII space, tab, newline, carriage return, vertical tab, form feed). -/
def pyIsSpace (c : Char) : Bool :=
  c == ' ' || c == '\t' || c == '\n' || c == '\x0d' || c == '\x0b' || c == '\x0c'

/-- Helper for Python `s.split()`: walk the characters accumulating the
current token (reversed); whitespace flushes a nonempty token. -/
def pySplitWsAux : List Char → List Char → List String
  | [], [] => []
  | [], acc => [String.mk acc.reverse]
  | c :: cs, acc =>
    if pyIsSpace c then
      match acc with
      | [] => pySplitWsAux cs []
      | _ :: _ => String.mk acc.reverse :: pySplitWsAux cs []
    else pySplitWsAux cs (c :: acc)

/-- Python `s.split()` with no arguments. -/
def pySplitWs (s : String) : List String := pySplitWsAux s.data []

/-- Registry metadata snapshot, restricted to the field the detector reads:
`package_info["info"]["description"]`. -/
structure PackageInfo where
  description : String

/-- Embeds `EmptyInfoDetector.detect(package_info)`. -/
def emptyInfoDetect (packageInfo : PackageInfo) : Bool :=
  (pySplitWs packageInfo.description).length == 0

/-- Closed form of the locations map a run of same-label findings builds up:
successive `results[label][location] = message` writes starting from `m`. -/
def locFold (relpath : String → String) (m : LocMap) : List Finding → LocMap
  | [] => m
  | f :: rest => locFold relpath (pyDictInsert m (findingLocation relpath f) f.lines) rest

/-! ## Lemmas about the dict primitives -/

theorem pyDictLookup_insert {V : Type} (d : List (String × V)) (k k' : String) (v : V) :
    pyDictLookup (pyDictInsert d k v) k' = if k = k' then some v else pyDictLookup d k' := by
  induction d with
  | nil => simp [pyDictInsert, pyDictLookup]
  | cons p rest ih =>
    by_cases h1 : p.1 = k
    · subst h1
      by_cases h2 : p.1 = k' <;> simp [pyDictInsert, pyDictLookup, h2]
    · by_cases h3 : p.1 = k'
      · have h4 : ¬ k = k' := fun hh => h1 (h3.trans hh.symm)
        have h5 : ¬ k' = k := fun hh => h4 hh.symm
        simp [pyDictInsert, pyDictLookup, h1, h3, h4, h5, ih]
      · simp [pyDictInsert, pyDictLookup, h1, h3, ih]

theorem pyDictLookup_eq_none {V : Type} (d : List (String × V)) (k : String)
    (h : k ∉ d.map Prod.fst) : pyDictLookup d k = none := by
  induction d with
  | nil => rfl
  | cons p rest ih =>
    simp only [List.map_cons, List.mem_cons] at h
    push_neg at h
    have h1 : ¬ p.1 = k := fun hh => h.1 hh.symm
    simp [pyDictLookup, h1, ih h.2]

theorem pyDictInsert_keys {V : Type} (d : List (String × V)) (k : String) (v : V) :
    (pyDictInsert d k v).map Prod.fst =
      if k ∈ d.map Prod.fst then d.map Prod.fst else d.map Prod.fst ++ [k] := by
  induction d with
  | nil => simp [pyDictInsert]
  | cons p rest ih =>
    by_cases h1 : p.1 = k
    · simp [pyDictInsert, h1]
    · have h4 : ¬ k = p.1 := fun hh => h1 hh.symm
      by_cases h2 : k ∈ rest.map Prod.fst <;> simp [pyDictInsert, h1, h2, ih, h4]

theorem pyDictInsert_nodupKeys {V : Type} (d : List (String × V)) (k : String) (v : V)
    (h : (d.map Prod.fst).Nodup) : ((pyDictInsert d k v).map Prod.fst).Nodup := by
  rw [pyDictInsert_keys]
  by_cases hk : k ∈ d.map Prod.fst
  · simpa [hk] using h
  · rw [if_neg hk]
    simp only [List.nodup_append]
    refine ⟨h, List.nodup_singleton k, ?_⟩
    intro a ha hb
    simp only [List.mem_singleton] at hb
    exact hk (hb ▸ ha)

theorem pyDictUnion_lookup {V : Type} (d2 d1 : List (String × V)) (k : String)
    (h : (d2.map Prod.fst).Nodup) :
    pyDictLookup (pyDictUnion d1 d2) k = (pyDictLookup d2 k).or (pyDictLookup d1 k) := by
  induction d2 generalizing d1 with
  | nil => simp [pyDictUnion, pyDictLookup, Option.or]
  | cons p rest ih =>
    simp only [List.map_cons, List.nodup_cons] at h
    by_cases hk : p.1 = k
    · have hrest : pyDictLookup rest k = none :=
        pyDictLookup_eq_none rest k (hk ▸ h.1)
      simp [pyDictUnion, ih _ h.2, pyDictLookup, hk, hrest, pyDictLookup_insert]
    · simp [pyDictUnion, ih _ h.2, pyDictLookup, hk, pyDictLookup_insert]

/-! ## Lemmas about the sourcecode dispatch -/

theorem formatStep_lookup (rp : String → String) (rule : Option String)
    (res : RuleMap) (f : Finding) (k : String) :
    pyDictLookup (formatStep rp rule res f) k =
      if findingLabel rule f = k then
        some (pyDictInsert ((pyDictLookup res k).getD []) (findingLocation rp f) f.lines)
      else pyDictLookup res k := by
  unfold formatStep
  by_cases hk : findingLabel rule f = k
  · subst hk
    cases h : pyDictLookup res (findingLabel rule f) <;>
      simp [h, pyDictLookup_insert, pyDictInsert]
  · cases h : pyDictLookup res (findingLabel rule f) <;>
      simp [h, pyDictLookup_insert, hk]

theorem formatLoop_lookup (rp : String → String) (rule : Option String)
    (B : List Finding) (res : RuleMap) (k : String) :
    pyDictLookup (formatLoop rp rule res B) k =
      (if (B.filter (fun f => findingLabel rule f == k)).isEmpty then pyDictLookup res k
       else some (locFold rp ((pyDictLookup res k).getD [])
         (B.filter (fun f => findingLabel rule f == k)))) := by
  induction B generalizing res with
  | nil => simp [formatLoop]
  | cons f rest ih =>
    simp only [formatLoop]
    rw [ih]
    by_cases hl : findingLabel rule f = k
    · have hpred : (findingLabel rule f == k) = true := by simp [hl]
      have hres' : pyDictLookup (formatStep rp rule res f) k =
          some (pyDictInsert ((pyDictLookup res k).getD []) (findingLocation rp f) f.lines) := by
        rw [formatStep_lookup, if_pos hl]
      rw [List.filter_cons, if_pos hpred]
      cases hfe : rest.filter (fun f => findingLabel rule f == k) with
      | nil => simp [hfe, hres', locFold]
      | cons g gs => simp [hfe, hres', locFold]
    · have hpred : (findingLabel rule f == k) = false := by simp [hl]
      have hres' : pyDictLookup (formatStep rp rule res f) k = pyDictLookup res k := by
        rw [formatStep_lookup, if_neg hl]
      simp only [List.filter_cons, hpred, Bool.false_eq_true, if_false, hres']

theorem formatStep_nodupKeys (rp : String → String) (rule : Option String)
    (res : RuleMap) (f : Finding) (h : (res.map Prod.fst).Nodup) :
    ((formatStep rp rule res f).map Prod.fst).Nodup := by
  unfold formatStep
  cases hl : pyDictLookup res (findingLabel rule f) with
  | none => simpa [hl] using pyDictInsert_nodupKeys _ _ _ h
  | some m => simpa [hl] using pyDictInsert_nodupKeys _ _ _ h

theorem formatLoop_nodupKeys (rp : String → String) (rule : Option String)
    (B : List Finding) (res : RuleMap) (h : (res.map Prod.fst).Nodup) :
    ((formatLoop rp rule res B).map Prod.fst).Nodup := by
  induction B generalizing res with
  | nil => simpa [formatLoop] using h
  | cons f rest ih =>
    simp only [formatLoop]
    exact ih _ (formatStep_nodupKeys rp rule res f h)

theorem initRuleMap_lookup (cs : List String) (res : RuleMap) (k : String) :
    pyDictLookup (initRuleMap res cs) k = if k ∈ cs then some [] else pyDictLookup res k := by
  induction cs generalizing res with
  | nil => simp [initRuleMap]
  | cons r rest ih =>
    simp only [initRuleMap]
    rw [ih]
    by_cases h1 : k ∈ rest
    · simp [h1, List.mem_cons]
    · by_cases h2 : r = k
      · simp [h1, h2, pyDictLookup_insert, List.mem_cons]
      · have h3 : ¬ k = r := fun hh => h2 hh.symm
        simp [h1, h2, h3, pyDictLookup_insert, List.mem_cons]

theorem formatSome_lookup (rp : String → String) (r : String)
    (response : List Finding) (k : String) :
    pyDictLookup (formatSemgrepResponse rp response (some r)) k =
      if r = k then
        (if response.isEmpty then none else some (locFold rp [] response))
      else none := by
  unfold formatSemgrepResponse
  rw [formatLoop_lookup]
  by_cases h : r = k
  · subst h
    simp [findingLabel, pyDictLookup, List.filter_true]
  · simp [findingLabel, h, pyDictLookup]

theorem sourcecodeLoop_lookup (rp : String → String)
    (invokeRule : String → Option (List Finding)) (rs : List String)
    (hnd : rs.Nodup) (hsome : ∀ r ∈ rs, (invokeRule r).isSome)
    (res : RuleMap) (k : String) :
    ∃ out, sourcecodeLoop rp invokeRule res rs = .ok out ∧
      pyDictLookup out k =
        (if k ∈ rs then
          (if ((invokeRule k).getD []).isEmpty then pyDictLookup res k
           else some (locFold rp [] ((invokeRule k).getD [])))
         else pyDictLookup res k) := by
  induction rs generalizing res with
  | nil => exact ⟨res, rfl, by simp⟩
  | cons r rest ih =>
    simp only [List.nodup_cons] at hnd
    obtain ⟨fs, hfs⟩ := Option.isSome_iff_exists.mp (hsome r (List.mem_cons_self r rest))
    simp only [sourcecodeLoop, hfs]
    obtain ⟨out, hout, hlook⟩ :=
      ih hnd.2 (fun x hx => hsome x (List.mem_cons_of_mem r hx))
        (pyDictUnion res (formatSemgrepResponse rp fs (some r)))
    refine ⟨out, hout, ?_⟩
    rw [hlook]
    have hun : ∀ k', pyDictLookup (pyDictUnion res (formatSemgrepResponse rp fs (some r))) k' =
        (pyDictLookup (formatSemgrepResponse rp fs (some r)) k').or (pyDictLookup res k') :=
      fun k' => pyDictUnion_lookup _ _ _ (formatLoop_nodupKeys rp (some r) fs [] (by simp))
    by_cases hk : k = r
    · subst hk
      have hnotin : k ∉ rest := hnd.1
      rw [if_neg hnotin, hun k, formatSome_lookup, if_pos rfl, hfs]
      simp only [Option.getD_some, List.mem_cons, true_or, if_pos (Or.inl rfl)]
      cases hfe : fs.isEmpty <;> simp [hfe]
    · have h1 : ¬ r = k := fun hh => hk hh.symm
      rw [hun k, formatSome_lookup, if_neg h1]
      by_cases h2 : k ∈ rest <;>
        simp [h2, hk, List.mem_cons]

theorem analyzeSourcecode_batched_lookup (rp : String → String) (catalog : List String)
    (B : List Finding) (invokeRule : String → Option (List Finding)) (k : String) :
    ∃ out, analyzeSourcecode rp catalog B invokeRule none = .ok out ∧
      pyDictLookup out k =
        (if (B.filter (fun f => findingLabel none f == k)).isEmpty then
          (if k ∈ catalog then some [] else none)
         else some (locFold rp [] (B.filter (fun f => findingLabel none f == k)))) := by
  refine ⟨_, rfl, ?_⟩
  rw [pyDictUnion_lookup (formatSemgrepResponse rp B none) (initRuleMap [] catalog) k
    (formatLoop_nodupKeys rp none B [] (by simp))]
  unfold formatSemgrepResponse
  rw [formatLoop_lookup, initRuleMap_lookup]
  cases hfe : (B.filter (fun f => findingLabel none f == k)).isEmpty <;>
    simp [hfe, pyDictLookup]

/-! ## Lemmas about the metadata dispatch -/

theorem metadataLoop_lookup_none {R : Type} (detect : String → Option R) (r : String)
    (hr : detect r = none) (rules : List String) (res : List (String × R)) :
    pyDictLookup (metadataLoop detect res rules) r = pyDictLookup res r := by
  induction rules generalizing res with
  | nil => rfl
  | cons s rest ih =>
    cases hs : detect s with
    | none =>
      simp only [metadataLoop, hs]
      exact ih res
    | some v =>
      simp only [metadataLoop, hs]
      rw [ih, pyDictLookup_insert, if_neg]
      intro hh
      subst hh
      rw [hr] at hs
      exact Option.noConfusion hs

theorem metadataLoop_lookup_stable {R : Type} (detect : String → Option R) (s : String)
    (v : R) (hv : detect s = some v) (rules : List String) (res : List (String × R))
    (hres : pyDictLookup res s = some v) :
    pyDictLookup (metadataLoop detect res rules) s = some v := by
  induction rules generalizing res with
  | nil => exact hres
  | cons t rest ih =>
    cases ht : detect t with
    | none =>
      simp only [metadataLoop, ht]
      exact ih res hres
    | some w =>
      simp only [metadataLoop, ht]
      apply ih
      rw [pyDictLookup_insert]
      by_cases h : t = s
      · subst h
        have hwv : v = w := Option.some.inj (hv.symm.trans ht)
        rw [if_pos rfl, hwv]
      · rw [if_neg h]
        exact hres

theorem metadataLoop_lookup_mem {R : Type} (detect : String → Option R) (s : String)
    (v : R) (hv : detect s = some v) (rules : List String) (hs : s ∈ rules)
    (res : List (String × R)) :
    pyDictLookup (metadataLoop detect res rules) s = some v := by
  induction rules generalizing res with
  | nil => cases hs
  | cons t rest ih =>
    rcases List.mem_cons.mp hs with h | h
    · subst h
      simp only [metadataLoop, hv]
      exact metadataLoop_lookup_stable detect s v hv rest _
        (by rw [pyDictLookup_insert, if_pos rfl])
    · cases ht : detect t with
      | none =>
        simp only [metadataLoop, ht]
        exact ih h res
      | some w =>
        simp only [metadataLoop, ht]
        exact ih h _

/-! ## Lemmas about Python `str.split()` -/

theorem pySplitWsAux_ne_nil (l acc : List Char) (h : acc ≠ []) :
    pySplitWsAux l acc ≠ [] := by
  induction l generalizing acc with
  | nil =>
    cases acc with
    | nil => exact absurd rfl h
    | cons a as => simp [pySplitWsAux]
  | cons c cs ih =>
    by_cases hsp : pyIsSpace c
    · cases acc with
      | nil => exact absurd rfl h
      | cons a as => simp [pySplitWsAux, hsp]
    · simp only [pySplitWsAux, hsp, Bool.false_eq_true, if_false]
      exact ih _ (by simp)

theorem pySplitWsAux_nil_iff (l : List Char) :
    pySplitWsAux l [] = [] ↔ ∀ c ∈ l, pyIsSpace c = true := by
  induction l with
  | nil => simp [pySplitWsAux]
  | cons c cs ih =>
    by_cases hsp : pyIsSpace c
    · simp [pySplitWsAux, hsp, ih]
    · simp only [pySplitWsAux, hsp, Bool.false_eq_true, if_false]
      simp [hsp, pySplitWsAux_ne_nil cs [c] (by simp)]

/-! ## Claim theorems -/

/-- C1: the claim says that for the single constraint `("~=", "1.4")` against
available versions `{1.3, 1.4, 1.4.2, 1.5, 2.0}` the resolver returns exactly
`{1.4, 1.4.2}`.  The code instead joins the prefix without dots (`"1"`),
stops at the first (string-)largest candidate `"1.5"`, and stores
`set("1.5")` — the set of its characters `{"1", ".", "5"}`, which is not equal
(as a set) to `{"1.4", "1.4.2"}`. -/
theorem pysecurity_compatible_returns_character_set :
    pyParseRequirements
        (fun n => if n = "pkg" then some ["1.3", "1.4", "1.4.2", "1.5", "2.0"] else none)
        (fun _ _ => false) [⟨"pkg", [("~=", "1.4")]⟩]
      = [("pkg", some ["1", ".", "5"])] ∧
    pySetEq ["1", ".", "5"] ["1.4", "1.4.2"] = false := by
  decide

/-- C2: the claim says GT/LT/GE/LE comparisons respect version-ordering, so
`"1.10"` satisfies `(">", "1.9")`.  The pysecurity code compares version
strings with Python string ordering, under which `"1.10" < "1.9"`, so the
candidate is rejected and the resolved set is empty; the guarddog resolver
(via the external `packaging` specifier) does order `1.10` above `1.9`. -/
theorem pysecurity_gt_uses_string_ordering :
    pyParseRequirements (fun n => if n = "pkg" then some ["1.10"] else none)
        (fun _ _ => false) [⟨"pkg", [(">", "1.9")]⟩]
      = [("pkg", some [])] ∧
    pyLt "1.9" "1.10" = false ∧
    pepLt "1.9" "1.10" = true ∧
    gdFindAllVersions (fun n => if n = "pkg" then some ["1.10"] else none)
        false "pkg" ">1.9" = some ["1.10"] := by
  decide

/-- C3: the claim says best-match mode returns the maximum of the candidate
set under version-ordering.  The code picks `sorted(result).pop()`, the
maximum under string ordering: for candidates `{1.9, 1.10}` of `>=1.9` it
returns `{"1.9"}` although `1.9 < 1.10` in version-ordering. -/
theorem guarddog_bestmatch_uses_string_sort :
    gdFindAllVersions (fun n => if n = "pkg" then some ["1.9", "1.10"] else none)
        false "pkg" ">=1.9" = some ["1.9"] ∧
    pepLt "1.9" "1.10" = true := by
  decide

/-- C4: the claim says `[(">=", "1.0"), ("<", "2.0")]` against
`{0.9, 1.0, 1.5, 1.9, 2.0, 2.1}` resolves to exactly `{1.0, 1.5, 1.9}` by
intersecting per-qualifier sets.  The pysecurity resolver does intersect and
yields that set, but the guarddog resolver hands the whole multi-clause
string `">=1.0,<2.0"` to the single-clause `Specifier` constructor, catches
the `ValueError` and keeps the raw range string as the "version". -/
theorem guarddog_multi_constraint_keeps_raw_string :
    gdFindAllVersions
        (fun n => if n = "pkg" then some ["0.9", "1.0", "1.5", "1.9", "2.0", "2.1"] else none)
        false "pkg" ">=1.0,<2.0" = some [">=1.0,<2.0"] ∧
    (pyParseRequirements
        (fun n => if n = "pkg" then some ["0.9", "1.0", "1.5", "1.9", "2.0", "2.1"] else none)
        (fun _ _ => false) [⟨"pkg", [(">=", "1.0"), ("<", "2.0")]⟩]).map
        (fun p => (p.1, p.2.map (fun s => pySetEq s ["1.0", "1.5", "1.9"])))
      = [("pkg", some true)] := by
  decide

/-- C8: the claim says a package whose version-list fetch fails is absent
from the returned dependency map.  In the pysecurity resolver the `except`
around the fetch only `continue`s the inner spec loop, so the package is
still written into the map with value `None` (present with an error value);
the guarddog resolver skips the requirement, leaving it absent, and in both
resolvers the sibling package still resolves. -/
theorem pysecurity_fetch_failure_keeps_package_with_none :
    pyParseRequirements (fun n => if n = "other" then some ["1.0"] else none)
        (fun _ _ => false) [⟨"pkg", [(">=", "1.0")]⟩, ⟨"other", [(">=", "1.0")]⟩]
      = [("pkg", none), ("other", some ["1.0"])] ∧
    pyDictLookup (pyParseRequirements (fun n => if n = "other" then some ["1.0"] else none)
        (fun _ _ => false) [⟨"pkg", [(">=", "1.0")]⟩, ⟨"other", [(">=", "1.0")]⟩]) "pkg"
      = some none ∧
    gdParseRequirements (fun n => if n = "other" then some ["1.0"] else none) false
        [("pkg", ">=1.0"), ("other", ">=1.0")]
      = [("other", ["1.0"])] := by
  decide

/-- C6: supplying both a non-empty requested rule list and a non-empty
excluded rule list makes the invocation exit with the conflict error before
the scanner is ever consulted, whatever the scanner would have returned. -/
theorem conflicting_rule_selection_rejected {Out : Type} (allRules : Finset String)
    (rules excludeRules : List String) (scanLocal : Option (Finset String) → Out)
    (hr : rules ≠ []) (hx : excludeRules ≠ []) :
    verifyInvocation allRules rules excludeRules scanLocal =
      .error "--rules and --exclude-rules cannot be used together" := by
  obtain ⟨r, rs, rfl⟩ := List.exists_cons_of_ne_nil hr
  obtain ⟨x, xs, rfl⟩ := List.exists_cons_of_ne_nil hx
  simp [verifyInvocation, getRulePram, Id.run]

/-- Witness for C6 at a concrete invocation. -/
theorem conflicting_rule_selection_rejected_witness :
    (["shady-links"] : List String) ≠ [] ∧ (["typosquatting"] : List String) ≠ [] ∧
    verifyInvocation (∅ : Finset String) ["shady-links"] ["typosquatting"]
        (fun ruleParam => ruleParam) =
      .error "--rules and --exclude-rules cannot be used together" :=
  ⟨by decide, by decide,
    conflicting_rule_selection_rejected ∅ ["shady-links"] ["typosquatting"]
      (fun ruleParam => ruleParam) (by decide) (by decide)⟩

/-- C7: in the metadata dispatch, a rule whose detector raises is absent from
the result map, while any sibling rule whose detector returns a value is
present and bound to exactly that value; the exception never escapes (the
dispatch always returns a map). -/
theorem analyzeMetadata_isolates_failures {R : Type} (detect : String → Option R)
    (rules : List String) (r s : String) (v : R)
    (hr : detect r = none) (hs : s ∈ rules) (hv : detect s = some v) :
    pyDictLookup (analyzeMetadata detect rules) r = none ∧
    pyDictLookup (analyzeMetadata detect rules) s = some v := by
  constructor
  · unfold analyzeMetadata
    rw [metadataLoop_lookup_none detect r hr rules []]
    rfl
  · exact metadataLoop_lookup_mem detect s v hv rules hs []

/-- Witness for C7: `empty_information`'s detector raises while
`typosquatting`'s returns `true`. -/
theorem analyzeMetadata_isolates_failures_witness :
    ((fun rule => if rule = "typosquatting" then some true else none) "empty_information"
        = (none : Option Bool)) ∧
    ("typosquatting" ∈ ["typosquatting", "empty_information"]) ∧
    ((fun rule => if rule = "typosquatting" then some true else none) "typosquatting"
        = some true) ∧
    (pyDictLookup (analyzeMetadata
        (fun rule => if rule = "typosquatting" then some true else none)
        ["typosquatting", "empty_information"]) "empty_information" = none ∧
      pyDictLookup (analyzeMetadata
        (fun rule => if rule = "typosquatting" then some true else none)
        ["typosquatting", "empty_information"]) "typosquatting" = some true) :=
  ⟨by decide, by decide, by decide,
    analyzeMetadata_isolates_failures
      (fun rule => if rule = "typosquatting" then some true else none)
      ["typosquatting", "empty_information"] "empty_information" "typosquatting" true
      (by decide) (by decide) (by decide)⟩

/-- C9: `EmptyInfoDetector.detect` returns `True` exactly when the
description has no non-whitespace character, because Python's no-argument
`str.split` drops all whitespace runs; a description of only spaces, tabs or
newlines is classified as empty. -/
theorem emptyInfoDetect_iff_all_whitespace (packageInfo : PackageInfo) :
    emptyInfoDetect packageInfo = true ↔
      ∀ c ∈ packageInfo.description.data, pyIsSpace c = true := by
  unfold emptyInfoDetect pySplitWs
  rw [beq_iff_eq, List.length_eq_zero]
  exact pySplitWsAux_nil_iff _

/-- C5: running the batched invocation over the full catalog and running the
engine once per rule over the same tree give result maps with identical
per-rule locations.  The hypotheses state what determinism of the external
engine guarantees: the per-rule invocation of `r` returns exactly the batched
findings whose check-id label is `r` (in the same order), and every batched
finding labels a catalog rule. -/
theorem analyzeSourcecode_batched_perRule_equiv (rp : String → String)
    (catalog : List String) (B : List Finding)
    (invokeRule : String → Option (List Finding)) (hnd : catalog.Nodup)
    (hE : ∀ r ∈ catalog,
      invokeRule r = some (B.filter (fun f => findingLabel none f == r)))
    (hB : ∀ f ∈ B, findingLabel none f ∈ catalog) :
    ∃ d1 d2, analyzeSourcecode rp catalog B invokeRule none = .ok d1 ∧
      analyzeSourcecode rp catalog B invokeRule (some catalog) = .ok d2 ∧
      ∀ k, pyDictLookup d1 k = pyDictLookup d2 k := by
  have hsome : ∀ r ∈ catalog, (invokeRule r).isSome := by
    intro r hr
    rw [hE r hr]
    rfl
  obtain ⟨d2, hd2, _⟩ :=
    sourcecodeLoop_lookup rp invokeRule catalog hnd hsome (initRuleMap [] catalog) ""
  refine ⟨pyDictUnion (initRuleMap [] catalog) (formatSemgrepResponse rp B none),
    d2, rfl, hd2, ?_⟩
  intro k
  obtain ⟨out1, hout1, h1⟩ := analyzeSourcecode_batched_lookup rp catalog B invokeRule k
  have e1 : out1 =
      pyDictUnion (initRuleMap [] catalog) (formatSemgrepResponse rp B none) :=
    (Except.ok.inj hout1).symm
  obtain ⟨out2, hout2, h2⟩ :=
    sourcecodeLoop_lookup rp invokeRule catalog hnd hsome (initRuleMap [] catalog) k
  have e2 : out2 = d2 := by
    rw [hout2] at hd2
    exact Except.ok.inj hd2
  rw [← e1, ← e2, h1, h2]
  by_cases hk : k ∈ catalog
  · rw [hE k hk]
    rw [initRuleMap_lookup]
    cases hfe : (B.filter (fun f => findingLabel none f == k)).isEmpty <;>
      simp [hk, hfe]
  · have hfe : B.filter (fun f => findingLabel none f == k) = [] := by
      rw [List.filter_eq_nil_iff]
      intro f hf
      simp only [beq_iff_eq]
      intro hlab
      exact hk (hlab ▸ hB f hf)
    rw [initRuleMap_lookup]
    simp [hfe, hk, pyDictLookup]

/-- Witness for C5 at a concrete catalog, batched findings list and
consistent per-rule engine. -/
theorem analyzeSourcecode_batched_perRule_equiv_witness :
    (["shady-links", "code-execution"] : List String).Nodup ∧
    (∀ r ∈ ["shady-links", "code-execution"],
      (fun rule =>
          some (([⟨"rules.shady-links", "a.py", 3, "x"⟩,
                  ⟨"rules.code-execution", "b.py", 7, "y"⟩,
                  ⟨"rules.shady-links", "a.py", 9, "z"⟩] : List Finding).filter
            (fun f => findingLabel none f == rule))) r
        = some (([⟨"rules.shady-links", "a.py", 3, "x"⟩,
                  ⟨"rules.code-execution", "b.py", 7, "y"⟩,
                  ⟨"rules.shady-links", "a.py", 9, "z"⟩] : List Finding).filter
            (fun f => findingLabel none f == r))) ∧
    (∀ f ∈ ([⟨"rules.shady-links", "a.py", 3, "x"⟩,
             ⟨"rules.code-execution", "b.py", 7, "y"⟩,
             ⟨"rules.shady-links", "a.py", 9, "z"⟩] : List Finding),
      findingLabel none f ∈ ["shady-links", "code-execution"]) ∧
    (∃ d1 d2,
      analyzeSourcecode (fun p => p) ["shady-links", "code-execution"]
          [⟨"rules.shady-links", "a.py", 3, "x"⟩,
           ⟨"rules.code-execution", "b.py", 7, "y"⟩,
           ⟨"rules.shady-links", "a.py", 9, "z"⟩]
          (fun rule =>
            some (([⟨"rules.shady-links", "a.py", 3, "x"⟩,
                    ⟨"rules.code-execution", "b.py", 7, "y"⟩,
                    ⟨"rules.shady-links", "a.py", 9, "z"⟩] : List Finding).filter
              (fun f => findingLabel none f == rule))) none = .ok d1 ∧
      analyzeSourcecode (fun p => p) ["shady-links", "code-execution"]
          [⟨"rules.shady-links", "a.py", 3, "x"⟩,
           ⟨"rules.code-execution", "b.py", 7, "y"⟩,
           ⟨"rules.shady-links", "a.py", 9, "z"⟩]
          (fun rule =>
            some (([⟨"rules.shady-links", "a.py", 3, "x"⟩,
                    ⟨"rules.code-execution", "b.py", 7, "y"⟩,
                    ⟨"rules.shady-links", "a.py", 9, "z"⟩] : List Finding).filter
              (fun f => findingLabel none f == rule))) (some ["shady-links", "code-execution"])
        = .ok d2 ∧
      ∀ k, pyDictLookup d1 k = pyDictLookup d2 k) :=
  ⟨by decide, fun r _ => rfl, by decide,
    analyzeSourcecode_batched_perRule_equiv (fun p => p) ["shady-links", "code-execution"]
      [⟨"rules.shady-links", "a.py", 3, "x"⟩,
       ⟨"rules.code-execution", "b.py", 7, "y"⟩,
       ⟨"rules.shady-links", "a.py", 9, "z"⟩]
      (fun rule =>
        some (([⟨"rules.shady-links", "a.py", 3, "x"⟩,
                ⟨"rules.code-execution", "b.py", 7, "y"⟩,
                ⟨"rules.shady-links", "a.py", 9, "z"⟩] : List Finding).filter
          (fun f => findingLabel none f == rule)))
      (by decide) (fun r _ => rfl) (by decide)⟩

/-- C10: the sourcecode analysis returns a map in which every selected rule
is a key — bound to the empty locations map when that rule produced no
findings — in both the batched mode (selection = full catalog) and the
per-rule mode (selection = `rs`, assuming each selected rule's engine
invocation succeeds, since a failing one raises instead of returning). -/
theorem analyzeSourcecode_keys_total (rp : String → String) (catalog : List String)
    (B : List Finding) (invokeRule : String → Option (List Finding))
    (rs : List String) (hnd : rs.Nodup)
    (hsome : ∀ r ∈ rs, (invokeRule r).isSome) :
    (∃ out, analyzeSourcecode rp catalog B invokeRule none = .ok out ∧
      ∀ r ∈ catalog, ∃ m, pyDictLookup out r = some m ∧
        ((B.filter (fun f => findingLabel none f == r)).isEmpty = true → m = [])) ∧
    (∃ out, analyzeSourcecode rp catalog B invokeRule (some rs) = .ok out ∧
      ∀ r ∈ rs, ∃ m, pyDictLookup out r = some m ∧
        (invokeRule r = some [] → m = [])) := by
  constructor
  · refine ⟨pyDictUnion (initRuleMap [] catalog) (formatSemgrepResponse rp B none),
      rfl, ?_⟩
    intro r hr
    obtain ⟨out1, hout1, h1⟩ := analyzeSourcecode_batched_lookup rp catalog B invokeRule r
    have e1 : out1 =
        pyDictUnion (initRuleMap [] catalog) (formatSemgrepResponse rp B none) :=
      (Except.ok.inj hout1).symm
    rw [← e1, h1]
    cases hfe : (B.filter (fun f => findingLabel none f == r)).isEmpty with
    | true => exact ⟨[], by simp [hr], fun _ => rfl⟩
    | false =>
      refine ⟨locFold rp [] (B.filter (fun f => findingLabel none f == r)), by simp, ?_⟩
      intro hcontra
      exact Bool.noConfusion hcontra
  · obtain ⟨out2, hout2, _⟩ :=
      sourcecodeLoop_lookup rp invokeRule rs hnd hsome (initRuleMap [] rs) ""
    refine ⟨out2, hout2, ?_⟩
    intro r hr
    obtain ⟨out2', hout2', h2⟩ :=
      sourcecodeLoop_lookup rp invokeRule rs hnd hsome (initRuleMap [] rs) r
    have e2 : out2' = out2 := by
      rw [hout2'] at hout2
      exact Except.ok.inj hout2
    rw [← e2, h2]
    cases hfe : ((invokeRule r).getD []).isEmpty with
    | true =>
      refine ⟨[], ?_, fun _ => rfl⟩
      simp [hr, hfe, initRuleMap_lookup]
    | false =>
      refine ⟨locFold rp [] ((invokeRule r).getD []), by simp [hr, hfe], ?_⟩
      intro hcontra
      rw [hcontra] at hfe
      simp at hfe

/-- Witness for C10 at a concrete catalog, findings list and per-rule
engine, including a selected rule with no findings. -/
theorem analyzeSourcecode_keys_total_witness :
    (["shady-links", "obfuscation"] : List String).Nodup ∧
    (∀ r ∈ ["shady-links", "obfuscation"],
      ((fun rule => if rule = "shady-links"
          then some ([⟨"rules.shady-links", "a.py", 3, "x"⟩] : List Finding)
          else some []) r).isSome) ∧
    ((∃ out, analyzeSourcecode (fun p => p) ["shady-links", "obfuscation"]
        [⟨"rules.shady-links", "a.py", 3, "x"⟩]
        (fun rule => if rule = "shady-links"
          then some ([⟨"rules.shady-links", "a.py", 3, "x"⟩] : List Finding)
          else some []) none = .ok out ∧
      ∀ r ∈ ["shady-links", "obfuscation"], ∃ m, pyDictLookup out r = some m ∧
        ((([⟨"rules.shady-links", "a.py", 3, "x"⟩] : List Finding).filter
            (fun f => findingLabel none f == r)).isEmpty = true → m = [])) ∧
    (∃ out, analyzeSourcecode (fun p => p) ["shady-links", "obfuscation"]
        [⟨"rules.shady-links", "a.py", 3, "x"⟩]
        (fun rule => if rule = "shady-links"
          then some ([⟨"rules.shady-links", "a.py", 3, "x"⟩] : List Finding)
          else some []) (some ["shady-links", "obfuscation"]) = .ok out ∧
      ∀ r ∈ ["shady-links", "obfuscation"], ∃ m, pyDictLookup out r = some m ∧
        ((fun rule => if rule = "shady-links"
            then some ([⟨"rules.shady-links", "a.py", 3, "x"⟩] : List Finding)
            else some []) r = some [] → m = []))) :=
  ⟨by decide, by decide,
    analyzeSourcecode_keys_total (fun p => p) ["shady-links", "obfuscation"]
      [⟨"rules.shady-links", "a.py", 3, "x"⟩]
      (fun rule => if rule = "shady-links"
        then some ([⟨"rules.shady-links", "a.py", 3, "x"⟩] : List Finding)
        else some [])
      ["shady-links", "obfuscation"] (by decide) (by decide)⟩

end PyGuard
